import Mathlib

/-!
Verification development for the latency analytics service (src/api/index.py).

The service keeps a fixed literal telemetry dataset (TELEMETRY_DATA), groups it
by region at startup into a defaultdict (PROCESSED_DATA), and serves a single
aggregation operation (analyze_latency) computing per-region statistics.

Modelling conventions:
- Python floats are modelled by exact rationals; the decimal literals of the
  dataset are exact in this model.
- The Python dict is modelled by an association list with insertion-order
  semantics (first insertion fixes position; overwrite keeps position),
  matching CPython dict behaviour.
- defaultdict indexed access is modelled by ddIndex, which returns the stored
  bucket and the (possibly extended) store, making the insert-on-miss side
  effect of defaultdict explicit.
- numpy calls (np.mean, np.percentile with default linear interpolation,
  boolean-sum counting) are modelled from their documented semantics.
- Python round (bankers rounding, half to even) is modelled by pyRound.
-/

/-- One telemetry observation, as in the literal dataset of the source. -/
structure Sample where
  region : String
  service : String
  latency_ms : ℚ
  uptime_pct : ℚ
  timestamp : ℕ
deriving DecidableEq

/-- The literal dataset TELEMETRY_DATA of src/api/index.py. The decimal
literals of the source are written as exact fractions (103.67 as 10367/100)
so that proofs can evaluate them; the values are identical. -/
def TELEMETRY_DATA : List Sample := [
  ⟨"apac", "catalog", 10367/100, 99269/1000, 20250301⟩,
  ⟨"apac", "support", 20681/100, 9888/100, 20250302⟩,
  ⟨"apac", "analytics", 1504/10, 97798/1000, 20250303⟩,
  ⟨"apac", "checkout", 13944/100, 97891/1000, 20250304⟩,
  ⟨"apac", "support", 15957/100, 97519/1000, 20250305⟩,
  ⟨"apac", "checkout", 23117/100, 97365/1000, 20250306⟩,
  ⟨"apac", "checkout", 15599/100, 97822/1000, 20250307⟩,
  ⟨"apac", "recommendations", 17731/100, 97575/1000, 20250308⟩,
  ⟨"apac", "payments", 23658/100, 9727/100, 20250309⟩,
  ⟨"apac", "support", 15206/100, 98879/1000, 20250310⟩,
  ⟨"apac", "analytics", 14373/100, 98738/1000, 20250311⟩,
  ⟨"apac", "checkout", 10063/100, 98563/1000, 20250312⟩,
  ⟨"emea", "analytics", 18677/100, 97498/1000, 20250301⟩,
  ⟨"emea", "support", 22388/100, 99071/1000, 20250302⟩,
  ⟨"emea", "payments", 22529/100, 98303/1000, 20250303⟩,
  ⟨"emea", "payments", 12649/100, 97432/1000, 20250304⟩,
  ⟨"emea", "catalog", 18337/100, 99029/1000, 20250305⟩,
  ⟨"emea", "support", 16976/100, 9848/100, 20250306⟩,
  ⟨"emea", "catalog", 13566/100, 97909/1000, 20250307⟩,
  ⟨"emea", "support", 12556/100, 97164/1000, 20250308⟩,
  ⟨"emea", "recommendations", 21931/100, 97868/1000, 20250309⟩,
  ⟨"emea", "payments", 132, 992/10, 20250310⟩,
  ⟨"emea", "checkout", 12216/100, 98539/1000, 20250311⟩,
  ⟨"emea", "checkout", 10786/100, 98703/1000, 20250312⟩,
  ⟨"amer", "recommendations", 16282/100, 98083/1000, 20250301⟩,
  ⟨"amer", "recommendations", 1719/10, 97271/1000, 20250302⟩,
  ⟨"amer", "analytics", 15474/100, 98954/1000, 20250303⟩,
  ⟨"amer", "recommendations", 13084/100, 98581/1000, 20250304⟩,
  ⟨"amer", "payments", 22248/100, 98746/1000, 20250305⟩,
  ⟨"amer", "support", 12392/100, 99387/1000, 20250306⟩,
  ⟨"amer", "payments", 18361/100, 99035/1000, 20250307⟩,
  ⟨"amer", "analytics", 15798/100, 99103/1000, 20250308⟩,
  ⟨"amer", "recommendations", 21252/100, 98047/1000, 20250309⟩,
  ⟨"amer", "payments", 21567/100, 9902/100, 20250310⟩,
  ⟨"amer", "recommendations", 14113/100, 99242/1000, 20250311⟩,
  ⟨"amer", "payments", 13405/100, 98826/1000, 20250312⟩]

/-- One region bucket: the latencies and uptimes lists of a region, as built
by the grouping loop of the source. -/
structure Bucket where
  latencies : List ℚ
  uptimes : List ℚ
deriving DecidableEq

/-- The grouped store: a Python dict from region name to bucket, modelled as
an insertion-ordered association list. -/
abbrev Store := List (String × Bucket)

/-- Python dict lookup: first (and only) entry with the given key. -/
def dictLookup {β : Type} (d : List (String × β)) (k : String) : Option β :=
  match d with
  | [] => none
  | (k0, v0) :: rest => if k0 = k then some v0 else dictLookup rest k

/-- Python dict assignment d[k] = v: overwrite in place if the key exists
(keeping its position), else append at the end. -/
def dictInsert {β : Type} (d : List (String × β)) (k : String) (v : β) :
    List (String × β) :=
  match d with
  | [] => [(k, v)]
  | (k0, v0) :: rest =>
    if k0 = k then (k0, v) :: rest else (k0, v0) :: dictInsert rest k v

/-- defaultdict indexed access d[k] with default factory giving an empty
bucket: returns the bucket and the store, inserting an empty bucket first
when the key is absent. -/
def ddIndex (d : Store) (k : String) : Bucket × Store :=
  match dictLookup d k with
  | some b => (b, d)
  | none => (⟨[], []⟩, d ++ [(k, ⟨[], []⟩)])

/-- One iteration of the grouping loop of the source: index the defaultdict at
the region of the sample and append the latency and uptime of the sample. -/
def addSample (d : Store) (s : Sample) : Store :=
  let p := ddIndex d s.region
  dictInsert p.2 s.region
    ⟨p.1.latencies ++ [s.latency_ms], p.1.uptimes ++ [s.uptime_pct]⟩

/-- PROCESSED_DATA of the source: the dataset grouped by region, built once. -/
def PROCESSED_DATA : Store := TELEMETRY_DATA.foldl addSample []

/-- np.mean: arithmetic mean (0 on the empty list in this model; the source
never takes the mean of an empty list). -/
def npMean (l : List ℚ) : ℚ := l.sum / l.length

/-- np.percentile with the default linear interpolation method, modelled from
the numpy documentation: with the list sorted ascending and n its length, the
virtual index is q / 100 * (n - 1); the result interpolates linearly between
the floor index and the next index (clipped to n - 1). -/
def npPercentile (q : ℚ) (l : List ℚ) : ℚ :=
  let sorted := List.insertionSort (· ≤ ·) l
  let n := l.length
  let virt : ℚ := q / 100 * ((n : ℚ) - 1)
  let lo : ℤ := ⌊virt⌋
  let hi : ℤ := min (lo + 1) ((n : ℤ) - 1)
  let g : ℚ := virt - (lo : ℚ)
  let alo := sorted.getD lo.toNat 0
  let ahi := sorted.getD hi.toNat 0
  alo + g * (ahi - alo)

/-- Python round to an integer: round half to even. -/
def roundHalfEven (q : ℚ) : ℤ :=
  if q - ⌊q⌋ < 1/2 then ⌊q⌋
  else if 1/2 < q - ⌊q⌋ then ⌊q⌋ + 1
  else if ⌊q⌋ % 2 = 0 then ⌊q⌋ else ⌊q⌋ + 1

/-- Python round(x, ndigits): round half to even at the given decimal place. -/
def pyRound (q : ℚ) (ndigits : ℕ) : ℚ :=
  (roundHalfEven (q * 10 ^ ndigits) : ℚ) / 10 ^ ndigits

/-- The per-region statistics record returned by the analyze operation. -/
structure RegionStats where
  avg_latency : ℚ
  p95_latency : ℚ
  avg_uptime : ℚ
  breaches : ℕ
deriving DecidableEq

/-- The zeroed-out entry the source emits for an unknown region. -/
def zeroStats : RegionStats := ⟨0, 0, 0, 0⟩

/-- The statistics the source computes for a region with data: rounded mean
latency, rounded 95th percentile, rounded mean uptime, and the count of
latencies strictly above the threshold (np.sum of a boolean comparison). -/
def regionStats (latencies uptimes : List ℚ) (t : ℤ) : RegionStats :=
  ⟨pyRound (npMean latencies) 2,
   pyRound (npPercentile 95 latencies) 2,
   pyRound (npMean uptimes) 4,
   latencies.countP (fun x => decide ((t : ℚ) < x))⟩

/-- One iteration of the loop of analyze_latency: if the region is absent from
the store, record the zeroed-out entry; otherwise read latencies and uptimes
through two defaultdict accesses and record the computed statistics. -/
def analyzeStep (t : ℤ) (acc : List (String × RegionStats) × Store)
    (region : String) : List (String × RegionStats) × Store :=
  if (dictLookup acc.2 region).isSome then
    let p1 := ddIndex acc.2 region
    let p2 := ddIndex p1.2 region
    (dictInsert acc.1 region (regionStats p1.1.latencies p2.1.uptimes t), p2.2)
  else
    (dictInsert acc.1 region zeroStats, acc.2)

/-- The body of analyze_latency: fold the loop over the requested regions,
starting from an empty results dict, threading the store. -/
def analyze (store : Store) (regions : List String) (t : ℤ) :
    List (String × RegionStats) × Store :=
  regions.foldl (analyzeStep t) ([], store)

/-- The analyze_latency endpoint: the results dict for the requested regions
and threshold, computed against PROCESSED_DATA. -/
def analyze_latency (regions : List String) (t : ℤ) :
    List (String × RegionStats) :=
  (analyze PROCESSED_DATA regions t).1

/-- Modelled from the spec (section 4.2): the 95th percentile by linear
interpolation between closest ranks — sort ascending, rank r = 0.95 * (n - 1),
lo = floor r, hi = ceil r, frac = r - lo, result
L_sorted[lo] + frac * (L_sorted[hi] - L_sorted[lo]). Stated separately from
npPercentile so the source computation can be compared against the spec. -/
def specP95 (l : List ℚ) : ℚ :=
  let sorted := List.insertionSort (· ≤ ·) l
  let n := l.length
  let r : ℚ := 95/100 * ((n : ℚ) - 1)
  let lo : ℤ := ⌊r⌋
  let hi : ℤ := ⌈r⌉
  let frac : ℚ := r - (lo : ℚ)
  sorted.getD lo.toNat 0 + frac * (sorted.getD hi.toNat 0 - sorted.getD lo.toNat 0)

/-- The statistics the analyze loop records for one region against a fixed
store: computed statistics when the region has a bucket, the zeroed-out entry
otherwise. -/
def statsFor (store : Store) (t : ℤ) (r : String) : RegionStats :=
  match dictLookup store r with
  | some b => regionStats b.latencies b.uptimes t
  | none => zeroStats

theorem dictLookup_dictInsert {β : Type} (d : List (String × β)) (k k' : String)
    (v : β) :
    dictLookup (dictInsert d k v) k' =
      if k = k' then some v else dictLookup d k' := by
  induction d with
  | nil =>
    simp only [dictInsert, dictLookup]
  | cons p rest ih =>
    obtain ⟨k0, v0⟩ := p
    by_cases h0 : k0 = k
    · subst h0
      by_cases h1 : k0 = k' <;> simp [dictInsert, dictLookup, h1]
    · simp only [dictInsert, if_neg h0, dictLookup]
      by_cases h1 : k0 = k'
      · subst h1
        rw [if_pos rfl, if_neg (fun h => h0 h.symm), if_pos rfl]
      · rw [if_neg h1, ih, if_neg h1]

theorem dictLookup_mem {β : Type} {d : List (String × β)} {k : String} {v : β}
    (h : dictLookup d k = some v) : (k, v) ∈ d := by
  induction d with
  | nil => simp [dictLookup] at h
  | cons p rest ih =>
    obtain ⟨k0, v0⟩ := p
    simp only [dictLookup] at h
    by_cases h0 : k0 = k
    · rw [if_pos h0] at h
      subst h0
      injection h with h
      subst h
      exact List.mem_cons_self _ _
    · rw [if_neg h0] at h
      exact List.mem_cons_of_mem _ (ih h)

theorem mem_keys_of_dictLookup_none {β : Type} {d : List (String × β)}
    {k : String} (h : dictLookup d k = none) : k ∉ d.map Prod.fst := by
  induction d with
  | nil => simp
  | cons p rest ih =>
    obtain ⟨k0, v0⟩ := p
    simp only [dictLookup] at h
    by_cases h0 : k0 = k
    · rw [if_pos h0] at h
      exact absurd h (by simp)
    · rw [if_neg h0] at h
      simp only [List.map_cons, List.mem_cons]
      rintro (h1 | h1)
      · exact h0 h1.symm
      · exact ih h h1

theorem ddIndex_of_some {d : Store} {k : String} {b : Bucket}
    (h : dictLookup d k = some b) : ddIndex d k = (b, d) := by
  simp only [ddIndex, h]

theorem analyzeStep_pair (t : ℤ) (results : List (String × RegionStats))
    (store : Store) (r : String) :
    analyzeStep t (results, store) r =
      (dictInsert results r (statsFor store t r), store) := by
  cases h : dictLookup store r with
  | none =>
    simp only [analyzeStep, statsFor, h, Option.isSome_none, Bool.false_eq_true,
      if_false]
  | some b =>
    simp only [analyzeStep, statsFor, h, Option.isSome_some, if_true,
      ddIndex_of_some h]

theorem analyze_foldl_lookup (t : ℤ) (regions : List String)
    (results : List (String × RegionStats)) (store : Store) (r : String) :
    dictLookup (List.foldl (analyzeStep t) (results, store) regions).1 r =
      if r ∈ regions then some (statsFor store t r)
      else dictLookup results r := by
  induction regions generalizing results with
  | nil => simp
  | cons a rest ih =>
    rw [List.foldl_cons, analyzeStep_pair, ih]
    by_cases hrest : r ∈ rest
    · rw [if_pos hrest, if_pos (List.mem_cons_of_mem _ hrest)]
    · rw [if_neg hrest, dictLookup_dictInsert]
      by_cases ha : a = r
      · subst ha
        rw [if_pos rfl, if_pos (List.mem_cons_self _ _)]
      · have hnot : r ∉ a :: rest := by
          simp only [List.mem_cons, not_or]
          exact ⟨fun h => ha h.symm, hrest⟩
        rw [if_neg ha, if_neg hnot]

theorem analyze_foldl_store (t : ℤ) (regions : List String)
    (acc : List (String × RegionStats) × Store) :
    (List.foldl (analyzeStep t) acc regions).2 = acc.2 := by
  induction regions generalizing acc with
  | nil => rfl
  | cons a rest ih =>
    obtain ⟨results, store⟩ := acc
    rw [List.foldl_cons, analyzeStep_pair, ih]

theorem analyze_lookup (store : Store) (regions : List String) (t : ℤ)
    (r : String) :
    dictLookup (analyze store regions t).1 r =
      if r ∈ regions then some (statsFor store t r) else none := by
  rw [analyze, analyze_foldl_lookup]
  rfl

theorem npPercentile95_eq_specP95 (l : List ℚ) : npPercentile 95 l = specP95 l := by
  rcases l with _ | ⟨x, l1⟩
  · simp [npPercentile, specP95]
  rcases l1 with _ | ⟨y, l2⟩
  · norm_num [npPercentile, specP95, List.insertionSort, List.orderedInsert]
  have hn : 2 ≤ (x :: y :: l2).length := by simp
  simp only [npPercentile, specP95]
  set n : ℕ := (x :: y :: l2).length with hn_def
  set virt : ℚ := 95 / 100 * ((n : ℚ) - 1) with hv
  by_cases hfrac : virt - (⌊virt⌋ : ℚ) = 0
  · rw [hfrac, zero_mul, zero_mul]
  · have hceil : ⌈virt⌉ = ⌊virt⌋ + 1 := by
      have h1 := Int.floor_le_ceil virt
      have h2 := Int.ceil_le_floor_add_one virt
      have h3 : ⌈virt⌉ ≠ ⌊virt⌋ := by
        intro heq
        apply hfrac
        have h4 := Int.le_ceil virt
        rw [heq] at h4
        have h5 := Int.floor_le virt
        linarith
      omega
    have hlo : ⌊virt⌋ + 1 ≤ (n : ℤ) - 1 := by
      have hpos : (1 : ℚ) ≤ (n : ℚ) - 1 := by
        have h2n : (2 : ℚ) ≤ (n : ℚ) := by exact_mod_cast hn
        linarith
      have hlt : virt < (n : ℚ) - 1 := by
        rw [hv]
        nlinarith
      have hfl : ⌊virt⌋ < (n : ℤ) - 1 := by
        apply Int.floor_lt.mpr
        push_cast
        exact hlt
      omega
    have hmin : min (⌊virt⌋ + 1) ((n : ℤ) - 1) = ⌈virt⌉ := by
      rw [hceil]
      exact min_eq_left hlo
    rw [hmin]

attribute [local semireducible] Rat.mul Rat.inv Rat.add Rat.sub

/-- The bucket the grouping produces for one region: the latencies and uptimes
of exactly the samples whose region string matches, in dataset order. -/
def bucketOf (r : String) : Bucket :=
  ⟨(TELEMETRY_DATA.filter fun s => s.region == r).map Sample.latency_ms,
   (TELEMETRY_DATA.filter fun s => s.region == r).map Sample.uptime_pct⟩

theorem PROCESSED_DATA_eq :
    PROCESSED_DATA =
      [("apac", bucketOf "apac"), ("emea", bucketOf "emea"),
       ("amer", bucketOf "amer")] := by decide

theorem statsFor_some {r : String} {b : Bucket} (t : ℤ)
    (hb : dictLookup PROCESSED_DATA r = some b) :
    statsFor PROCESSED_DATA t r = regionStats b.latencies b.uptimes t := by
  rw [statsFor, hb]

theorem statsFor_none {r : String} (t : ℤ)
    (hb : dictLookup PROCESSED_DATA r = none) :
    statsFor PROCESSED_DATA t r = zeroStats := by
  rw [statsFor, hb]

theorem analyze_latency_lookup (regions : List String) (t : ℤ) (r : String) :
    dictLookup (analyze_latency regions t) r =
      if r ∈ regions then some (statsFor PROCESSED_DATA t r) else none := by
  rw [analyze_latency, analyze_lookup]

/-- C1: for every region present in the Dataset Store, the p95_latency field
returned by the analyze operation equals the 95th percentile of the region
latency list computed by linear interpolation between closest ranks (the
formula of the spec, specP95), rounded to 2 decimal places. -/
theorem c1_p95_linear_interpolation (regions : List String) (t : ℤ)
    (r : String) (b : Bucket) (hr : r ∈ regions)
    (hb : dictLookup PROCESSED_DATA r = some b) :
    ∃ s, dictLookup (analyze_latency regions t) r = some s ∧
      s.p95_latency = pyRound (specP95 b.latencies) 2 := by
  refine ⟨statsFor PROCESSED_DATA t r, ?_, ?_⟩
  · rw [analyze_latency_lookup, if_pos hr]
  · rw [statsFor_some t hb]
    show pyRound (npPercentile 95 b.latencies) 2 = pyRound (specP95 b.latencies) 2
    rw [npPercentile95_eq_specP95]

/-- C1 witness: the theorem instantiated at region apac with its bucket. -/
theorem c1_witness :
    ∃ s, dictLookup (analyze_latency ["apac"] 150) "apac" = some s ∧
      s.p95_latency = pyRound (specP95 (bucketOf "apac").latencies) 2 :=
  c1_p95_linear_interpolation ["apac"] 150 "apac" (bucketOf "apac")
    (by decide) (by decide)

/-- C2: for every region present in the Dataset Store, avg_latency is the
arithmetic mean of the region latencies rounded to 2 decimal places and
avg_uptime is the arithmetic mean of the region uptimes rounded to 4 decimal
places. -/
theorem c2_avg_fields (regions : List String) (t : ℤ) (r : String) (b : Bucket)
    (hr : r ∈ regions) (hb : dictLookup PROCESSED_DATA r = some b) :
    ∃ s, dictLookup (analyze_latency regions t) r = some s ∧
      s.avg_latency = pyRound (npMean b.latencies) 2 ∧
      s.avg_uptime = pyRound (npMean b.uptimes) 4 := by
  refine ⟨statsFor PROCESSED_DATA t r, ?_, ?_, ?_⟩
  · rw [analyze_latency_lookup, if_pos hr]
  · rw [statsFor_some t hb]
    rfl
  · rw [statsFor_some t hb]
    rfl

/-- C2 witness: the theorem instantiated at region apac with its bucket. -/
theorem c2_witness :
    ∃ s, dictLookup (analyze_latency ["apac"] 150) "apac" = some s ∧
      s.avg_latency = pyRound (npMean (bucketOf "apac").latencies) 2 ∧
      s.avg_uptime = pyRound (npMean (bucketOf "apac").uptimes) 4 :=
  c2_avg_fields ["apac"] 150 "apac" (bucketOf "apac") (by decide) (by decide)

/-- C3: every requested region with no bucket in the Dataset Store is mapped,
at every threshold, to the record with avg_latency 0, p95_latency 0,
avg_uptime 0 and breaches 0 (the operation is total, so no error arises). -/
theorem c3_unknown_region_zeroed (regions : List String) (t : ℤ) (r : String)
    (hr : r ∈ regions) (hb : dictLookup PROCESSED_DATA r = none) :
    dictLookup (analyze_latency regions t) r =
      some ⟨0, 0, 0, 0⟩ := by
  rw [analyze_latency_lookup, if_pos hr, statsFor_none t hb]
  rfl

/-- C3 witness: the theorem instantiated at the unknown region mars. -/
theorem c3_witness :
    dictLookup (analyze_latency ["apac", "mars"] 100) "mars" =
      some ⟨0, 0, 0, 0⟩ :=
  c3_unknown_region_zeroed ["apac", "mars"] 100 "mars" (by decide) (by decide)

/-- C4: for every region present in the Dataset Store and every integer
threshold (zero and negative included), the breaches field equals the count of
the region latencies strictly greater than the threshold. -/
theorem c4_breaches_count (regions : List String) (t : ℤ) (r : String)
    (b : Bucket) (hr : r ∈ regions)
    (hb : dictLookup PROCESSED_DATA r = some b) :
    ∃ s, dictLookup (analyze_latency regions t) r = some s ∧
      s.breaches = b.latencies.countP (fun x => decide ((t : ℚ) < x)) := by
  refine ⟨statsFor PROCESSED_DATA t r, ?_, ?_⟩
  · rw [analyze_latency_lookup, if_pos hr]
  · rw [statsFor_some t hb]
    rfl

/-- C4 witness: the theorem instantiated at region apac with a negative
threshold. -/
theorem c4_witness :
    ∃ s, dictLookup (analyze_latency ["apac"] (-3)) "apac" = some s ∧
      s.breaches = (bucketOf "apac").latencies.countP
        (fun x => decide (((-3 : ℤ) : ℚ) < x)) :=
  c4_breaches_count ["apac"] (-3) "apac" (bucketOf "apac") (by decide) (by decide)

/-- C5: for a fixed requested region, the breaches field is monotonically
non-increasing in the threshold: with t1 at most t2, the count at t2 is at
most the count at t1. -/
theorem c5_breaches_antitone (regions : List String) (r : String) (t1 t2 : ℤ)
    (hr : r ∈ regions) (ht : t1 ≤ t2) :
    ∃ s1 s2, dictLookup (analyze_latency regions t1) r = some s1 ∧
      dictLookup (analyze_latency regions t2) r = some s2 ∧
      s2.breaches ≤ s1.breaches := by
  refine ⟨statsFor PROCESSED_DATA t1 r, statsFor PROCESSED_DATA t2 r,
    by rw [analyze_latency_lookup, if_pos hr],
    by rw [analyze_latency_lookup, if_pos hr], ?_⟩
  cases h : dictLookup PROCESSED_DATA r with
  | none => rw [statsFor_none t1 h, statsFor_none t2 h]
  | some b =>
    rw [statsFor_some t1 h, statsFor_some t2 h]
    show b.latencies.countP (fun x => decide ((t2 : ℚ) < x)) ≤
      b.latencies.countP (fun x => decide ((t1 : ℚ) < x))
    apply List.countP_mono_left
    intro x hx hpx
    simp only [decide_eq_true_eq] at hpx ⊢
    have hq : (t1 : ℚ) ≤ (t2 : ℚ) := by exact_mod_cast ht
    linarith

/-- C5 witness: the theorem instantiated at region apac, thresholds 100 and
150. -/
theorem c5_witness :
    ∃ s1 s2, dictLookup (analyze_latency ["apac"] 100) "apac" = some s1 ∧
      dictLookup (analyze_latency ["apac"] 150) "apac" = some s2 ∧
      s2.breaches ≤ s1.breaches :=
  c5_breaches_antitone ["apac"] "apac" 100 150 (by decide) (by decide)

/-- C6: for every threshold, the analyze operation on an empty regions list
returns the empty mapping (and, being total, raises no error). -/
theorem c6_empty_regions (t : ℤ) : analyze_latency [] t = [] := rfl

/-- C7: the analyze operation is deterministic and mutates no hidden state:
running it a second time with identical arguments, on the state left by the
first call, returns exactly the result and state of the first call. -/
theorem c7_idempotent (regions : List String) (t : ℤ) :
    analyze (analyze PROCESSED_DATA regions t).2 regions t =
      analyze PROCESSED_DATA regions t := by
  have h2 : (analyze PROCESSED_DATA regions t).2 = PROCESSED_DATA :=
    analyze_foldl_store t regions ([], PROCESSED_DATA)
  rw [h2]

/-- C8 counterexample: for region apac at threshold 150 the analyze operation
returns avg_latency 163.11, which is not approximately 161.78 as the claim
states (the two differ by 1.33, far above any rounding tolerance). -/
theorem c8_counterexample :
    Option.map RegionStats.avg_latency
        (dictLookup (analyze_latency ["apac"] 150) "apac") =
      some (16311 / 100) ∧
    (16311 : ℚ) / 100 ≠ 16178 / 100 ∧
    1 < |(16311 : ℚ) / 100 - 16178 / 100| := by
  refine ⟨by decide, by norm_num, by rw [abs_of_pos] <;> norm_num⟩

/-- C8 (amended): for region apac (12 latency values in the literal dataset),
avg_latency equals the mean of those values rounded to 2 decimals, which is
163.11 (not 161.78), and at threshold 150 breaches is 8, the count of values
strictly above 150. -/
theorem c8_apac_scenario :
    (bucketOf "apac").latencies.length = 12 ∧
    Option.map RegionStats.avg_latency
        (dictLookup (analyze_latency ["apac"] 150) "apac") =
      some (pyRound (npMean (bucketOf "apac").latencies) 2) ∧
    pyRound (npMean (bucketOf "apac").latencies) 2 = 16311 / 100 ∧
    Option.map RegionStats.breaches
        (dictLookup (analyze_latency ["apac"] 150) "apac") = some 8 ∧
    (bucketOf "apac").latencies.countP (fun x => decide ((150 : ℚ) < x)) = 8 := by
  refine ⟨by decide, by decide, by decide, by decide, by decide⟩

/-- C9: the Dataset Store invariants: for every bucket, latencies and uptimes
have equal length and are exactly the latency and uptime values of the samples
whose region string equals the bucket key (case-sensitive, dataset order); and
a region with no bucket has no sample, so every sample contributes to exactly
the one bucket named by its region. -/
theorem c9_store_invariants :
    (∀ r b, dictLookup PROCESSED_DATA r = some b →
      b.latencies.length = b.uptimes.length ∧
      b.latencies =
        (TELEMETRY_DATA.filter fun s => s.region == r).map Sample.latency_ms ∧
      b.uptimes =
        (TELEMETRY_DATA.filter fun s => s.region == r).map Sample.uptime_pct) ∧
    (∀ r, dictLookup PROCESSED_DATA r = none →
      (TELEMETRY_DATA.filter fun s => s.region == r) = []) := by
  constructor
  · intro r b h
    rw [PROCESSED_DATA_eq] at h
    simp only [dictLookup] at h
    split_ifs at h with h1 h2 h3 <;> injection h with h <;> subst h <;>
      subst_vars <;> exact ⟨by decide, rfl, rfl⟩
  · intro r h
    have hk := mem_keys_of_dictLookup_none h
    rw [PROCESSED_DATA_eq] at hk
    simp only [List.map_cons, List.map_nil, List.mem_cons, List.not_mem_nil,
      not_or] at hk
    obtain ⟨h1, h2, h3, -⟩ := hk
    rw [List.filter_eq_nil_iff]
    intro s hs
    have hreg : s.region = "apac" ∨ s.region = "emea" ∨ s.region = "amer" := by
      revert s hs
      decide
    simp only [beq_iff_eq]
    rcases hreg with hr | hr | hr <;> rw [hr] <;> intro hc <;>
      [exact h1 hc.symm; exact h2 hc.symm; exact h3 hc.symm]

/-- C9 witness: the invariants instantiated at the apac bucket. -/
theorem c9_witness :
    (bucketOf "apac").latencies.length = (bucketOf "apac").uptimes.length ∧
    (bucketOf "apac").latencies =
      (TELEMETRY_DATA.filter fun s => s.region == "apac").map Sample.latency_ms ∧
    (bucketOf "apac").uptimes =
      (TELEMETRY_DATA.filter fun s => s.region == "apac").map Sample.uptime_pct :=
  c9_store_invariants.1 "apac" (bucketOf "apac") (by decide)

/-- C10: the analyze operation leaves the Dataset Store unchanged for every
regions list and threshold (unknown regions are membership-tested before any
defaultdict indexing, so no empty bucket is ever inserted), and the store keys
are exactly apac, emea, amer. -/
theorem c10_store_frame (regions : List String) (t : ℤ) :
    (analyze PROCESSED_DATA regions t).2 = PROCESSED_DATA ∧
    PROCESSED_DATA.map Prod.fst = ["apac", "emea", "amer"] := by
  exact ⟨analyze_foldl_store t regions ([], PROCESSED_DATA), by decide⟩
